import Mathlib

/-!
Verification of the HTTPProxy-to-DNS-endpoint synthesis pipeline
(`source/httpproxy.go`).

The Go source is shallowly embedded: each Go function becomes a Lean
definition of the same name, machine maps become association lists, and
the external collaborators (the Kubernetes service lookup, the
label-selector library, the `text/template` engine) are passed in as an
explicit environment of Lean functions.  Helpers that the file calls but
that live elsewhere in the repository (the annotation codec,
`endpointsForHostname`, `parseContourLoadBalancerService`, the target
sort order) are modelled from the specification; each such definition
says so in its doc comment.
-/

/-- Decidable equality of `Except` results, used to evaluate the
pipeline on concrete inputs. -/
instance {ε α : Type} [DecidableEq ε] [DecidableEq α] : DecidableEq (Except ε α) := fun x y =>
  match x, y with
  | .ok a, .ok b =>
    if h : a = b then .isTrue (congrArg Except.ok h)
    else .isFalse (fun he => h (Except.ok.inj he))
  | .error a, .error b =>
    if h : a = b then .isTrue (congrArg Except.error h)
    else .isFalse (fun he => h (Except.error.inj he))
  | .ok _, .error _ => .isFalse (fun he => Except.noConfusion he)
  | .error _, .ok _ => .isFalse (fun he => Except.noConfusion he)

/-! ## String helpers (structural, kernel-reducible) -/

/-- Splits a character list at every occurrence of `sep`, Go
`strings.Split` style: the result always has one more element than the
number of separators, and splitting the empty string yields `[""]`. -/
def splitCharAux (sep : Char) : List Char → List Char → List String
  | [], acc => [String.mk acc.reverse]
  | c :: rest, acc =>
    if c = sep then String.mk acc.reverse :: splitCharAux sep rest []
    else splitCharAux sep rest (c :: acc)

/-- Embedding of Go `strings.Split(s, sep)` for a one-character separator. -/
def splitChar (sep : Char) (s : String) : List String :=
  splitCharAux sep s.data []

/-- Embedding of Go `strings.Replace(s, " ", "", -1)`: removes every
space character. -/
def removeSpaces (s : String) : String :=
  String.mk (s.data.filter (fun c => c ≠ ' '))

/-- Embedding of Go `strings.TrimSuffix(s, ".")`: removes one trailing
period when present, and is the identity otherwise. -/
def trimSuffixDot (s : String) : String :=
  if s.data.reverse.head? = some '.' then String.mk s.data.reverse.tail.reverse else s

/-- Numeric value of a digit list, used by the TTL parser. -/
def digitsToNat (cs : List Char) : Nat :=
  cs.foldl (fun acc c => acc * 10 + (c.toNat - 48)) 0

/-- Parses a non-negative decimal integer; any non-digit character (or
the empty string) fails. -/
def parseNonNegInt (s : String) : Option Nat :=
  if !s.data.isEmpty && s.data.all (fun c => c.isDigit) then some (digitsToNat s.data)
  else none

/-! ## Association lists (Go string-keyed maps) -/

/-- Lookup in a string-keyed association list, the embedding of a Go map
read `m[k]` together with its `ok` flag. -/
def lookupAnn : List (String × String) → String → Option String
  | [], _ => none
  | (k, v) :: rest, key => if k = key then some v else lookupAnn rest key

/-- Update-or-insert in a string-keyed association list, the embedding
of a Go map write `m[k] = v`. -/
def setAssoc : List (String × String) → String → String → List (String × String)
  | [], k, v => [(k, v)]
  | (k', v') :: rest, k, v =>
    if k' = k then (k, v) :: rest else (k', v') :: setAssoc rest k v

/-! ## Well-known annotation keys.

Modelled from the spec: the well-known annotation keys and the expected
controller value are referenced by `source/httpproxy.go` but defined in
a sibling file of the repository that is not part of the sources; the
spec describes them as fixed distinguished keys of the annotation map. -/

def controllerAnnotationKey : String := "external-dns.alpha.kubernetes.io/controller"

def controllerAnnotationValue : String := "dns-controller"

def ttlAnnotationKey : String := "external-dns.alpha.kubernetes.io/ttl"

def targetAnnotationKey : String := "external-dns.alpha.kubernetes.io/target"

def hostnameAnnotationKey : String := "external-dns.alpha.kubernetes.io/hostname"

def setIdentifierAnnKey : String := "external-dns.alpha.kubernetes.io/set-identifier"

def providerSpecificAnnPrefix : String := "external-dns.alpha.kubernetes.io/provider-"

def resourceLabelKey : String := "resource"

/-! ## Data model -/

/-- Virtual host block of an HTTPProxy spec, carrying the primary fqdn. -/
structure VirtualHost where
  fqdn : String
deriving DecidableEq

/-- Spec of an HTTPProxy; the virtual host is a nullable pointer in Go. -/
structure HTTPProxySpec where
  virtualHost : Option VirtualHost
deriving DecidableEq

/-- Status of an HTTPProxy; only `"valid"` resources are eligible. -/
structure HTTPProxyStatus where
  currentStatus : String
deriving DecidableEq

/-- A routing resource snapshot as delivered by the informer cache. -/
structure HTTPProxy where
  ns : String
  name : String
  annotations : List (String × String)
  spec : HTTPProxySpec
  status : HTTPProxyStatus
deriving DecidableEq

/-- A synthesized DNS endpoint record (`endpoint.Endpoint`). -/
structure Endpoint where
  dnsName : String
  targets : List String
  recordType : String
  recordTTL : Int
  labels : List (String × String)
  providerSpecific : List (String × String)
  setIdentifier : String
deriving DecidableEq

/-- One load-balancer ingress entry of a service status; either field
may be empty. -/
structure LoadBalancerIngress where
  ip : String
  hostname : String
deriving DecidableEq

/-- The part of a Kubernetes service status the resolver inspects. -/
structure ServiceStatus where
  ingress : List LoadBalancerIngress
deriving DecidableEq

/-- A parsed label selector as exposed by the selector library: an
emptiness test and a match predicate over an annotation map. -/
structure Selector where
  isEmptySel : Bool
  selMatches : List (String × String) → Bool

/-- External collaborators of the synthesis pass: the label-selector
parser and the cluster service lookup.  Both are libraries outside this
repository, so they enter the embedding as opaque function values. -/
structure Env where
  parseAnnotationFilter : String → Except String Selector
  getService : String → String → Except String ServiceStatus

/-- Configuration of the source (`httpProxySource`), as fixed at
construction time.  The parsed fqdn template is embedded as an optional
rendering function from the resource to the rendered string. -/
structure HttpProxySource where
  contourLoadBalancerService : String
  annotationFilter : String
  fqdnTemplate : Option (HTTPProxy → Except String String)
  combineFQDN : Bool
  ignoreHostnameAnns : Bool

/-! ## Annotation codec.

Modelled from the spec: the codec functions are called by
`source/httpproxy.go` but defined in a sibling file of the repository
that is not part of the sources.  The spec (section 4.2) fixes their
contracts: all are total, TTL parsing alone reports a (non-fatal)
failure. -/

/-- TTL sentinel for "unset"; the spec models TTL as an optional signed
integer with -1 meaning unset. -/
def ttlUnset : Int := -1

/-- Modelled from the spec: TTL extraction parses the well-known TTL
annotation as a non-negative integer; absence yields unset with no
complaint, and a parse failure yields unset together with a `true`
warning flag (the Go caller logs the error and continues). -/
def getTTLFromAnnotations (anns : List (String × String)) : Int × Bool :=
  match lookupAnn anns ttlAnnotationKey with
  | none => (ttlUnset, false)
  | some v =>
    match parseNonNegInt v with
    | some n => ((n : Int), false)
    | none => (ttlUnset, true)

/-- Modelled from the spec: target-list extraction parses a
comma/whitespace-delimited annotation value into an ordered target
list; an empty or absent value yields the empty list. -/
def getTargetsFromTargetAnnotations (anns : List (String × String)) : List String :=
  match lookupAnn anns targetAnnotationKey with
  | none => []
  | some v => (splitChar ',' (removeSpaces v)).filter (fun t => t ≠ "")

/-- Modelled from the spec: alternate-hostnames extraction parses the
delimited hostname annotation into a list of hostnames. -/
def getHostnamesFromAnnotations (anns : List (String × String)) : List String :=
  match lookupAnn anns hostnameAnnotationKey with
  | none => []
  | some v => (splitChar ',' (removeSpaces v)).filter (fun h => h ≠ "")

/-- Modelled from the spec: provider-specific extraction scans the
annotations under the recognized prefix, stripping the prefix to form
output keys, and separately extracts the distinguished set-identifier
annotation. -/
def getProviderSpecificAnnotations (anns : List (String × String)) :
    List (String × String) × String :=
  let ps := anns.filterMap (fun kv =>
    if providerSpecificAnnPrefix.data.isPrefixOf kv.1.data then
      some (String.mk (kv.1.data.drop providerSpecificAnnPrefix.data.length), kv.2)
    else none)
  (ps, (lookupAnn anns setIdentifierAnnKey).getD "")

/-! ## Endpoint assembly.

Modelled from the spec: `endpointsForHostname` is called by
`source/httpproxy.go` but defined in a sibling file of the repository
that is not part of the sources.  The spec fixes its behaviour: the
record type is derived from the target shape (IP literal versus
hostname), all targets of one shape class share one endpoint, and
empty-target endpoints are dropped before being surfaced. -/

/-- Modelled from the spec: whether one dotted-quad IPv4 octet is well
formed (one to three digits, value at most 255). -/
def isIPv4Octet (s : String) : Bool :=
  !s.data.isEmpty && s.data.length ≤ 3 && s.data.all (fun c => c.isDigit)
    && digitsToNat s.data ≤ 255

/-- Modelled from the spec: target-shape classification — an IPv4
dotted quad or an IPv6 literal (containing a colon) is an address
target; anything else is a hostname target. -/
def isIP (s : String) : Bool :=
  (match splitChar '.' s with
   | [a, b, c, d] => isIPv4Octet a && isIPv4Octet b && isIPv4Octet c && isIPv4Octet d
   | _ => false)
  || s.data.contains ':'

/-- Modelled from the spec: assembles the endpoints for one hostname —
one `A` endpoint holding the address-shaped targets when any exist, and
one `CNAME` endpoint holding the hostname-shaped targets when any
exist; with no targets, no endpoint is produced.  Labels start empty. -/
def endpointsForHostname (hostname : String) (targets : List String) (ttl : Int)
    (providerSpecific : List (String × String)) (setIdentifier : String) : List Endpoint :=
  let aTargets := targets.filter (fun t => isIP t)
  let cnameTargets := targets.filter (fun t => !isIP t)
  (if aTargets.isEmpty then [] else
    [{ dnsName := hostname, targets := aTargets, recordType := "A", recordTTL := ttl,
       labels := [], providerSpecific := providerSpecific, setIdentifier := setIdentifier }]) ++
  (if cnameTargets.isEmpty then [] else
    [{ dnsName := hostname, targets := cnameTargets, recordType := "CNAME", recordTTL := ttl,
       labels := [], providerSpecific := providerSpecific, setIdentifier := setIdentifier }])

/-! ## Target resolution (`targetsFromContourLoadBalancer` and callers) -/

/-- Modelled from the spec: the combined `"namespace/name"` service
locator is split at the separator; missing separator or more than one
separator is an error. -/
def parseContourLoadBalancerService (s : String) : Except String (String × String) :=
  match splitChar '/' s with
  | [lbNamespace, lbName] => .ok (lbNamespace, lbName)
  | _ => .error ("invalid contour load balancer service: " ++ s)

/-- The ingress-collection loop of `targetsFromContourLoadBalancer`:
per ingress entry, in list order, a non-empty IP is appended and then a
non-empty hostname is appended. -/
def collectIngress : List LoadBalancerIngress → List String → List String
  | [], targets => targets
  | lb :: rest, targets =>
    let targets1 := if lb.ip ≠ "" then targets ++ [lb.ip] else targets
    let targets2 := if lb.hostname ≠ "" then targets1 ++ [lb.hostname] else targets1
    collectIngress rest targets2

/-- Embedding of `targetsFromContourLoadBalancer`: a malformed locator
is an error; a failed service lookup is logged and swallowed, yielding
the empty target list with no error (the Go `err` from the lookup is
shadowed inside the `if` and never returned). -/
def targetsFromContourLoadBalancer (env : Env) (sc : HttpProxySource) :
    Except String (List String) :=
  match parseContourLoadBalancerService sc.contourLoadBalancerService with
  | .error e => .error e
  | .ok (lbNamespace, lbName) =>
    match env.getService lbNamespace lbName with
    | .error _ => .ok []
    | .ok svc => .ok (collectIngress svc.ingress [])

/-- The shared target-resolution step of `endpointsFromHttpProxy` and
`endpointsFromTemplate`: annotation targets are used verbatim when
non-empty, otherwise the load-balancer fallback runs. -/
def resolveTargets (env : Env) (sc : HttpProxySource) (anns : List (String × String)) :
    Except String (List String) :=
  let targets := getTargetsFromTargetAnnotations anns
  if targets.isEmpty then targetsFromContourLoadBalancer env sc else .ok targets

/-! ## Per-resource endpoint generation -/

/-- Embedding of `endpointsFromHttpProxy`: a non-valid status yields no
endpoints and no error; otherwise endpoints are assembled for the
virtual-host fqdn (when present and non-empty) and, unless the
ignore-hostname mode is set, for every hostname from the hostname
annotation. -/
def endpointsFromHttpProxy (env : Env) (sc : HttpProxySource) (hp : HTTPProxy) :
    Except String (List Endpoint) :=
  if hp.status.currentStatus ≠ "valid" then .ok []
  else
    match resolveTargets env sc hp.annotations with
    | .error e => .error e
    | .ok targets =>
      let ttl := (getTTLFromAnnotations hp.annotations).1
      let ps := getProviderSpecificAnnotations hp.annotations
      let fqdnEndpoints :=
        match hp.spec.virtualHost with
        | some vh =>
          if vh.fqdn ≠ "" then endpointsForHostname vh.fqdn targets ttl ps.1 ps.2 else []
        | none => []
      let annEndpoints :=
        if !sc.ignoreHostnameAnns then
          (getHostnamesFromAnnotations hp.annotations).flatMap
            (fun h => endpointsForHostname h targets ttl ps.1 ps.2)
        else []
      .ok (fqdnEndpoints ++ annEndpoints)

/-- Embedding of `endpointsFromTemplate`: the configured template is
rendered against the whole resource; a render error is surfaced as an
error.  The rendered string has its spaces removed, is split on commas,
each piece loses one trailing period, and every piece is assembled with
the resource's targets, TTL and provider metadata. -/
def endpointsFromTemplate (env : Env) (sc : HttpProxySource) (hp : HTTPProxy) :
    Except String (List Endpoint) :=
  match sc.fqdnTemplate with
  | none => .error "fqdn template is not configured"
  | some tmpl =>
    match tmpl hp with
    | .error e =>
      .error ("failed to apply template on HTTPProxy " ++ hp.ns ++ "/" ++ hp.name ++ ": " ++ e)
    | .ok hostnames =>
      match resolveTargets env sc hp.annotations with
      | .error e => .error e
      | .ok targets =>
        let ttl := (getTTLFromAnnotations hp.annotations).1
        let ps := getProviderSpecificAnnotations hp.annotations
        .ok ((splitChar ',' (removeSpaces hostnames)).flatMap
          (fun hostname => endpointsForHostname (trimSuffixDot hostname) targets ttl ps.1 ps.2))

/-- Embedding of `filterByAnnotations`: an unparsable filter expression
is an error; an empty selector returns the original list; otherwise the
resources whose annotations match the selector are kept. -/
def filterByAnnotations (env : Env) (sc : HttpProxySource) (httpProxies : List HTTPProxy) :
    Except String (List HTTPProxy) :=
  match env.parseAnnotationFilter sc.annotationFilter with
  | .error e => .error e
  | .ok selector =>
    if selector.isEmptySel then .ok httpProxies
    else .ok (httpProxies.filter (fun hp => selector.selMatches hp.annotations))

/-- Ownership label value written by `setResourceLabel`:
`fmt.Sprintf("hp/%s/%s", hp.Namespace, hp.Name)`. -/
def resourceLabelValue (hp : HTTPProxy) : String :=
  "hp/" ++ hp.ns ++ "/" ++ hp.name

/-- Embedding of `setResourceLabel` for one endpoint: stores the
ownership label under the resource label key. -/
def setResourceLabel (hp : HTTPProxy) (ep : Endpoint) : Endpoint :=
  { ep with labels := setAssoc ep.labels resourceLabelKey (resourceLabelValue hp) }

/-- The eligibility gate at the head of the `Endpoints` loop: skip when
the controller annotation is present with a non-matching value, or
(else) when the status is not `"valid"`. -/
def gateSkip (hp : HTTPProxy) : Bool :=
  match lookupAnn hp.annotations controllerAnnotationKey with
  | some controller =>
    if controller ≠ controllerAnnotationValue then true
    else hp.status.currentStatus ≠ "valid"
  | none => hp.status.currentStatus ≠ "valid"

/-- The template conditional of the `Endpoints` loop body: when a
template is configured and either combine mode is on or the base path
was empty, the template path runs — appending under combine mode and
replacing otherwise; in every other case the base endpoints pass
through untouched. -/
def templateStep (env : Env) (sc : HttpProxySource) (hp : HTTPProxy)
    (hpEndpoints : List Endpoint) : Except String (List Endpoint) :=
  if sc.combineFQDN || hpEndpoints.isEmpty then
    match sc.fqdnTemplate with
    | some _ =>
      match endpointsFromTemplate env sc hp with
      | .error e => .error e
      | .ok tmplEndpoints =>
        .ok (if sc.combineFQDN then hpEndpoints ++ tmplEndpoints else tmplEndpoints)
    | none => .ok hpEndpoints
  else .ok hpEndpoints

/-- The per-resource body of the `Endpoints` loop after the eligibility
gate: generate base endpoints, run the template conditional, drop the
resource when nothing was generated, and label the survivors. -/
def eligibleEndpoints (env : Env) (sc : HttpProxySource) (hp : HTTPProxy) :
    Except String (List Endpoint) :=
  match endpointsFromHttpProxy env sc hp with
  | .error e => .error e
  | .ok hpEndpoints =>
    match templateStep env sc hp hpEndpoints with
    | .error e => .error e
    | .ok finalEndpoints =>
      if finalEndpoints.isEmpty then .ok []
      else .ok (finalEndpoints.map (setResourceLabel hp))

/-- One iteration of the `Endpoints` loop: the gate either skips the
resource (no endpoints, no error) or runs the eligible body. -/
def proxyEndpoints (env : Env) (sc : HttpProxySource) (hp : HTTPProxy) :
    Except String (List Endpoint) :=
  if gateSkip hp then .ok [] else eligibleEndpoints env sc hp

/-- The `Endpoints` loop over the filtered resource list: per-resource
endpoints are concatenated in list order; the first error aborts. -/
def endpointsLoop (env : Env) (sc : HttpProxySource) :
    List HTTPProxy → Except String (List Endpoint)
  | [] => .ok []
  | hp :: rest =>
    match proxyEndpoints env sc hp with
    | .error e => .error e
    | .ok hpEndpoints =>
      match endpointsLoop env sc rest with
      | .error e => .error e
      | .ok eps => .ok (hpEndpoints ++ eps)

/-- Modelled from the spec: the canonical target order of the final
normalization pass (`sort.Sort(ep.Targets)`); the comparison itself
lives outside the sources, and the spec only requires a canonical sort
order, embedded here as the lexicographic order on strings. -/
def sortTargets (ep : Endpoint) : Endpoint :=
  { ep with targets := ep.targets.insertionSort (· ≤ ·) }

/-- Embedding of the synthesis entry point `Endpoints`: filter the
snapshot by the annotation selector, run the per-resource loop, then
normalize every endpoint's target list into the canonical order. -/
def Endpoints (env : Env) (sc : HttpProxySource) (httpProxies : List HTTPProxy) :
    Except String (List Endpoint) :=
  match filterByAnnotations env sc httpProxies with
  | .error e => .error e
  | .ok filtered =>
    match endpointsLoop env sc filtered with
    | .error e => .error e
    | .ok endpoints => .ok (endpoints.map sortTargets)

/-! ## Concrete fixtures used by witnesses and counterexamples -/

/-- A selector that is empty and matches everything, as the selector
library produces for an empty filter expression. -/
def selAll : Selector := { isEmptySel := true, selMatches := fun _ => true }

/-- A selector parser that always succeeds with the empty selector. -/
def parseAll : String → Except String Selector := fun _ => .ok selAll

/-- An environment whose service lookup always fails. -/
def envNoSvc : Env :=
  { parseAnnotationFilter := parseAll,
    getService := fun _ _ => .error "service not found" }

/-- An environment whose service lookup yields one IP ingress entry and
one hostname ingress entry. -/
def sampleEnv : Env :=
  { parseAnnotationFilter := parseAll,
    getService := fun _ _ =>
      .ok { ingress := [{ ip := "10.0.0.1", hostname := "" },
                        { ip := "", hostname := "lb.example.com" }] } }

/-- A plain source configuration: no template, no combine mode. -/
def sampleSc : HttpProxySource :=
  { contourLoadBalancerService := "heptio-contour/contour",
    annotationFilter := "",
    fqdnTemplate := none,
    combineFQDN := false,
    ignoreHostnameAnns := false }

/-- A valid resource with primary hostname `a.example.com` and no
annotations. -/
def sampleHp : HTTPProxy :=
  { ns := "default", name := "foo",
    annotations := [],
    spec := { virtualHost := some { fqdn := "a.example.com" } },
    status := { currentStatus := "valid" } }

/-- A template whose rendering always fails. -/
def tmplBoom : HTTPProxy → Except String String := fun _ => .error "boom"

/-- A source with the failing template configured and combine mode off. -/
def scBoom : HttpProxySource :=
  { contourLoadBalancerService := "heptio-contour/contour",
    annotationFilter := "",
    fqdnTemplate := some tmplBoom,
    combineFQDN := false,
    ignoreHostnameAnns := true }

/-- A valid resource with primary hostname `a.com` and no annotations. -/
def hpAcom : HTTPProxy :=
  { ns := "default", name := "x",
    annotations := [],
    spec := { virtualHost := some { fqdn := "a.com" } },
    status := { currentStatus := "valid" } }

/-- A template rendering to a hostname with two trailing periods. -/
def tmplDots : HTTPProxy → Except String String := fun _ => .ok "foo.."

/-- A source with the two-period template configured. -/
def scDots : HttpProxySource :=
  { contourLoadBalancerService := "heptio-contour/contour",
    annotationFilter := "",
    fqdnTemplate := some tmplDots,
    combineFQDN := false,
    ignoreHostnameAnns := true }

/-- A valid resource with no virtual host and an explicit target
annotation. -/
def hpDots : HTTPProxy :=
  { ns := "d", name := "n",
    annotations := [(targetAnnotationKey, "1.2.3.4")],
    spec := { virtualHost := none },
    status := { currentStatus := "valid" } }

/-- First ingress fixture entry. -/
def ingA : LoadBalancerIngress := { ip := "10.0.0.1", hostname := "" }

/-- Second ingress fixture entry. -/
def ingB : LoadBalancerIngress := { ip := "", hostname := "lb.example.com" }

/-- An environment delivering the two ingress entries in one order. -/
def envPermA : Env :=
  { parseAnnotationFilter := parseAll,
    getService := fun _ _ => .ok { ingress := [ingA, ingB] } }

/-- The same environment with the ingress entries swapped. -/
def envPermB : Env :=
  { parseAnnotationFilter := parseAll,
    getService := fun _ _ => .ok { ingress := [ingB, ingA] } }

/-! ## Helper lemmas -/

/-- Looking up the key just written by `setAssoc` yields the written
value. -/
theorem lookupAnn_setAssoc (m : List (String × String)) (k v : String) :
    lookupAnn (setAssoc m k v) k = some v := by
  induction m with
  | nil => simp [setAssoc, lookupAnn]
  | cons kv rest ih =>
    obtain ⟨k', v'⟩ := kv
    by_cases h : k' = k
    · simp [setAssoc, h, lookupAnn]
    · simp [setAssoc, h, lookupAnn, ih]

/-- Every endpoint assembled for a hostname carries that hostname, the
given TTL, the given provider metadata, empty labels, and a non-empty
target list. -/
theorem mem_endpointsForHostname {ep : Endpoint} {h : String} {ts : List String} {ttl : Int}
    {ps : List (String × String)} {si : String}
    (hm : ep ∈ endpointsForHostname h ts ttl ps si) :
    ep.dnsName = h ∧ ep.recordTTL = ttl ∧ ep.labels = [] ∧
      ep.providerSpecific = ps ∧ ep.setIdentifier = si := by
  unfold endpointsForHostname at hm
  rw [List.mem_append] at hm
  rcases hm with hm | hm <;>
    · split at hm
      · simp at hm
      · rw [List.mem_singleton] at hm
        subst hm
        exact ⟨rfl, rfl, rfl, rfl, rfl⟩

/-- The ingress targets contributed by one load-balancer entry: the IP
when non-empty, then the hostname when non-empty. -/
def ingressTargets (lb : LoadBalancerIngress) : List String :=
  (if lb.ip ≠ "" then [lb.ip] else []) ++ (if lb.hostname ≠ "" then [lb.hostname] else [])

/-- The accumulator loop of `collectIngress` computes the concatenation
of the per-entry target contributions, in ingress-list order. -/
theorem collectIngress_eq (l : List LoadBalancerIngress) :
    ∀ acc, collectIngress l acc = acc ++ l.flatMap ingressTargets := by
  induction l with
  | nil => intro acc; simp [collectIngress]
  | cons lb rest ih =>
    intro acc
    simp only [collectIngress, List.flatMap_cons]
    rw [ih]
    by_cases hip : lb.ip = "" <;> by_cases hhn : lb.hostname = "" <;>
      simp [ingressTargets, hip, hhn]

/-- Results of `filterByAnnotations` only contain input resources. -/
theorem filterByAnnotations_subset {env : Env} {sc : HttpProxySource}
    {hps flist : List HTTPProxy}
    (h : filterByAnnotations env sc hps = .ok flist) : ∀ hp ∈ flist, hp ∈ hps := by
  unfold filterByAnnotations at h
  cases hp : env.parseAnnotationFilter sc.annotationFilter with
  | error e => rw [hp] at h; exact absurd h (by simp)
  | ok sel =>
    rw [hp] at h
    dsimp only at h
    by_cases he : sel.isEmptySel
    · rw [if_pos he] at h
      cases h; intro x hx; exact hx
    · rw [if_neg he] at h
      cases h; intro x hx; exact List.mem_of_mem_filter hx

/-- Every endpoint in a successful `eligibleEndpoints` result carries
the ownership label of its resource. -/
theorem eligibleEndpoints_labels {env : Env} {sc : HttpProxySource} {hp : HTTPProxy}
    {out : List Endpoint} (h : eligibleEndpoints env sc hp = .ok out) :
    ∀ ep ∈ out, lookupAnn ep.labels resourceLabelKey = some (resourceLabelValue hp) := by
  unfold eligibleEndpoints at h
  cases h1 : endpointsFromHttpProxy env sc hp with
  | error e => rw [h1] at h; exact absurd h (by simp)
  | ok hpEndpoints =>
    rw [h1] at h; dsimp only at h
    cases h2 : templateStep env sc hp hpEndpoints with
    | error e => rw [h2] at h; exact absurd h (by simp)
    | ok finalEndpoints =>
      rw [h2] at h; dsimp only at h
      by_cases hfin : finalEndpoints.isEmpty
      · rw [if_pos hfin] at h
        cases h
        intro ep hep
        simp at hep
      · rw [if_neg hfin] at h
        cases h
        intro ep hep
        rw [List.mem_map] at hep
        obtain ⟨ep0, _, rfl⟩ := hep
        exact lookupAnn_setAssoc ep0.labels resourceLabelKey (resourceLabelValue hp)

/-- Every endpoint in a successful loop result comes from the
per-resource output of some resource of the list. -/
theorem endpointsLoop_mem {env : Env} {sc : HttpProxySource} :
    ∀ {l : List HTTPProxy} {out : List Endpoint},
      endpointsLoop env sc l = .ok out →
      ∀ ep ∈ out, ∃ hp ∈ l, ∃ outHp, proxyEndpoints env sc hp = .ok outHp ∧ ep ∈ outHp := by
  intro l
  induction l with
  | nil =>
    intro out h ep hep
    unfold endpointsLoop at h
    cases h
    simp at hep
  | cons q rest ih =>
    intro out h ep hep
    unfold endpointsLoop at h
    cases hq : proxyEndpoints env sc q with
    | error e => rw [hq] at h; exact absurd h (by simp)
    | ok cur =>
      rw [hq] at h; dsimp only at h
      cases hr : endpointsLoop env sc rest with
      | error e => rw [hr] at h; exact absurd h (by simp)
      | ok eps =>
        rw [hr] at h; dsimp only at h
        cases h
        rw [List.mem_append] at hep
        rcases hep with hin | hin
        · exact ⟨q, List.mem_cons_self q rest, cur, hq, hin⟩
        · obtain ⟨hp, hmem, outHp, hpe, hin2⟩ := ih hr ep hin
          exact ⟨hp, List.mem_cons_of_mem q hmem, outHp, hpe, hin2⟩

/-- C1: every Endpoint in the list returned by the synthesis entry
point carries the ownership label of its source resource: its label map
entry under the resource label key is `"hp/<namespace>/<name>"` of the
HTTPProxy it was generated from (the kind token this source writes is
`"hp"`). -/
theorem endpoints_carry_ownership_label (env : Env) (sc : HttpProxySource)
    (hps : List HTTPProxy) (out : List Endpoint)
    (hout : Endpoints env sc hps = .ok out) :
    ∀ ep ∈ out, ∃ hp ∈ hps,
      lookupAnn ep.labels resourceLabelKey = some ("hp/" ++ hp.ns ++ "/" ++ hp.name) := by
  unfold Endpoints at hout
  cases hf : filterByAnnotations env sc hps with
  | error e => rw [hf] at hout; exact absurd hout (by simp)
  | ok flist =>
    rw [hf] at hout; dsimp only at hout
    cases hl : endpointsLoop env sc flist with
    | error e => rw [hl] at hout; exact absurd hout (by simp)
    | ok eps =>
      rw [hl] at hout; dsimp only at hout
      cases hout
      intro ep hep
      rw [List.mem_map] at hep
      obtain ⟨ep0, hin, rfl⟩ := hep
      obtain ⟨hp, hmem, outHp, hpe, hin2⟩ := endpointsLoop_mem hl ep0 hin
      refine ⟨hp, filterByAnnotations_subset hf hp hmem, ?_⟩
      have hlab : lookupAnn ep0.labels resourceLabelKey = some (resourceLabelValue hp) := by
        unfold proxyEndpoints at hpe
        by_cases hg : gateSkip hp
        · rw [if_pos hg] at hpe
          cases hpe
          simp at hin2
        · rw [if_neg hg] at hpe
          exact eligibleEndpoints_labels hpe ep0 hin2
      simpa [sortTargets, resourceLabelValue] using hlab

/-- The first endpoint the sample input produces. -/
def sampleEp : Endpoint :=
  { dnsName := "a.example.com", targets := ["10.0.0.1"], recordType := "A", recordTTL := -1,
    labels := [(resourceLabelKey, "hp/default/foo")], providerSpecific := [],
    setIdentifier := "" }

/-- The full endpoint list the sample input produces. -/
def sampleOut : List Endpoint :=
  [sampleEp,
   { dnsName := "a.example.com", targets := ["lb.example.com"], recordType := "CNAME",
     recordTTL := -1, labels := [(resourceLabelKey, "hp/default/foo")],
     providerSpecific := [], setIdentifier := "" }]

/-- Witness for C1 on the sample input. -/
theorem endpoints_carry_ownership_label_witness :
    ∃ hp ∈ [sampleHp],
      lookupAnn sampleEp.labels resourceLabelKey = some ("hp/" ++ hp.ns ++ "/" ++ hp.name) :=
  endpoints_carry_ownership_label sampleEnv sampleSc [sampleHp] sampleOut (by decide)
    sampleEp (by decide)

/-- C2: target resolution follows the three-step fallback: a non-empty
annotation-derived target list is returned verbatim and the service
lookup is never invoked (the result is the same for every environment);
otherwise the configured service is resolved and each ingress entry
contributes its non-empty IP and then its non-empty hostname, in
ingress-list order; and a service lookup failure yields the empty
target list with no error. -/
theorem target_resolution_fallback (env : Env) (sc : HttpProxySource)
    (anns : List (String × String)) :
    (getTargetsFromTargetAnnotations anns ≠ [] →
      ∀ envAny : Env, resolveTargets envAny sc anns = .ok (getTargetsFromTargetAnnotations anns))
    ∧ (∀ lbNs lbName svc,
        getTargetsFromTargetAnnotations anns = [] →
        parseContourLoadBalancerService sc.contourLoadBalancerService = .ok (lbNs, lbName) →
        env.getService lbNs lbName = .ok svc →
        resolveTargets env sc anns = .ok (svc.ingress.flatMap ingressTargets))
    ∧ (∀ lbNs lbName e,
        getTargetsFromTargetAnnotations anns = [] →
        parseContourLoadBalancerService sc.contourLoadBalancerService = .ok (lbNs, lbName) →
        env.getService lbNs lbName = .error e →
        resolveTargets env sc anns = .ok []) := by
  refine ⟨?_, ?_, ?_⟩
  · intro hne envAny
    simp [resolveTargets, List.isEmpty_iff, hne]
  · intro lbNs lbName svc h0 hparse hsvc
    simp only [resolveTargets, targetsFromContourLoadBalancer, h0, List.isEmpty_nil, if_true]
    rw [hparse]
    dsimp only
    rw [hsvc]
    dsimp only
    rw [collectIngress_eq]
    simp
  · intro lbNs lbName e h0 hparse hsvc
    simp only [resolveTargets, targetsFromContourLoadBalancer, h0, List.isEmpty_nil, if_true]
    rw [hparse]
    dsimp only
    rw [hsvc]

/-- Witness for C2: the three fallback steps on concrete inputs. -/
theorem target_resolution_fallback_witness :
    resolveTargets envNoSvc sampleSc [(targetAnnotationKey, "1.2.3.4,5.6.7.8")] =
      .ok (getTargetsFromTargetAnnotations [(targetAnnotationKey, "1.2.3.4,5.6.7.8")]) ∧
    resolveTargets sampleEnv sampleSc [] =
      .ok (({ ingress := [{ ip := "10.0.0.1", hostname := "" },
                          { ip := "", hostname := "lb.example.com" }] } :
            ServiceStatus).ingress.flatMap ingressTargets) ∧
    resolveTargets envNoSvc sampleSc [] = .ok [] :=
  ⟨(target_resolution_fallback envNoSvc sampleSc
      [(targetAnnotationKey, "1.2.3.4,5.6.7.8")]).1 (by decide) envNoSvc,
   (target_resolution_fallback sampleEnv sampleSc []).2.1 "heptio-contour" "contour" _
     (by decide) (by decide) rfl,
   (target_resolution_fallback envNoSvc sampleSc []).2.2 "heptio-contour" "contour"
     "service not found" (by decide) (by decide) rfl⟩

/-- C3: a resource whose controller annotation is present with a
non-matching value, or whose status is not `"valid"`, contributes zero
endpoints and no error: its loop iteration yields the empty list, and
the loop over any list containing it equals the loop with the resource
removed (the other resources are still processed). -/
theorem ineligible_resource_skipped (env : Env) (sc : HttpProxySource) (hp : HTTPProxy)
    (pre post : List HTTPProxy)
    (h : (∃ c, lookupAnn hp.annotations controllerAnnotationKey = some c ∧
            c ≠ controllerAnnotationValue)
         ∨ hp.status.currentStatus ≠ "valid") :
    proxyEndpoints env sc hp = .ok [] ∧
    endpointsLoop env sc (pre ++ hp :: post) = endpointsLoop env sc (pre ++ post) := by
  have hg : gateSkip hp = true := by
    unfold gateSkip
    rcases h with ⟨c, hc, hne⟩ | hs
    · rw [hc]
      simp [hne]
    · cases hl : lookupAnn hp.annotations controllerAnnotationKey with
      | none => simp [hs]
      | some c =>
        by_cases hcv : c = controllerAnnotationValue <;> simp [hcv, hs]
  have hskip : proxyEndpoints env sc hp = .ok [] := by simp [proxyEndpoints, hg]
  refine ⟨hskip, ?_⟩
  induction pre with
  | nil =>
    simp only [List.nil_append]
    simp only [endpointsLoop]
    rw [hskip]
    dsimp only
    cases hr : endpointsLoop env sc post <;> simp [hr]
  | cons q qs ih =>
    simp only [List.cons_append]
    simp only [endpointsLoop]
    cases hq : proxyEndpoints env sc q with
    | error e => rfl
    | ok cur =>
      dsimp only
      rw [ih]

/-- A resource with a status other than valid, used as a skipped
fixture. -/
def hpInvalid : HTTPProxy :=
  { ns := "default", name := "bad",
    annotations := [],
    spec := { virtualHost := some { fqdn := "b.com" } },
    status := { currentStatus := "invalid" } }

/-- Witness for C3 on a concrete invalid-status resource. -/
theorem ineligible_resource_skipped_witness :
    proxyEndpoints sampleEnv sampleSc hpInvalid = .ok [] ∧
    endpointsLoop sampleEnv sampleSc ([sampleHp] ++ hpInvalid :: []) =
      endpointsLoop sampleEnv sampleSc ([sampleHp] ++ []) :=
  ineligible_resource_skipped sampleEnv sampleSc hpInvalid [sampleHp] [] (Or.inr (by decide))

/-- C10: a resource whose controller annotation is entirely absent is
eligible — with valid status, its loop iteration is exactly the
eligible body, so endpoint generation proceeds normally. -/
theorem absent_controller_eligible (env : Env) (sc : HttpProxySource) (hp : HTTPProxy)
    (h1 : lookupAnn hp.annotations controllerAnnotationKey = none)
    (h2 : hp.status.currentStatus = "valid") :
    proxyEndpoints env sc hp = eligibleEndpoints env sc hp := by
  have hg : gateSkip hp = false := by
    unfold gateSkip
    rw [h1]
    simp [h2]
  simp [proxyEndpoints, hg]

/-- Witness for C10 on the sample resource, which has no annotations. -/
theorem absent_controller_eligible_witness :
    proxyEndpoints sampleEnv sampleSc sampleHp = eligibleEndpoints sampleEnv sampleSc sampleHp :=
  absent_controller_eligible sampleEnv sampleSc sampleHp rfl rfl

/-- Every endpoint of a successful base-path result carries the TTL
extracted from the resource's annotations. -/
theorem endpointsFromHttpProxy_ttl {env : Env} {sc : HttpProxySource} {hp : HTTPProxy}
    {eps : List Endpoint} (h : endpointsFromHttpProxy env sc hp = .ok eps) :
    ∀ ep ∈ eps, ep.recordTTL = (getTTLFromAnnotations hp.annotations).1 := by
  unfold endpointsFromHttpProxy at h
  split at h
  · cases h
    intro ep hep
    simp at hep
  · cases hres : resolveTargets env sc hp.annotations with
    | error e => rw [hres] at h; exact absurd h (by simp)
    | ok targets =>
      rw [hres] at h; dsimp only at h
      cases h
      intro ep hep
      rw [List.mem_append] at hep
      rcases hep with hin | hin
      · cases hvh : hp.spec.virtualHost with
        | none => rw [hvh] at hin; simp at hin
        | some vh =>
          rw [hvh] at hin
          dsimp only at hin
          split at hin
          · exact (mem_endpointsForHostname hin).2.1
          · simp at hin
      · split at hin
        · rw [List.mem_flatMap] at hin
          obtain ⟨hn, _, hmem⟩ := hin
          exact (mem_endpointsForHostname hmem).2.1
        · simp at hin

/-- Every endpoint of a successful template-path result carries the TTL
extracted from the resource's annotations. -/
theorem endpointsFromTemplate_ttl {env : Env} {sc : HttpProxySource} {hp : HTTPProxy}
    {eps : List Endpoint} (h : endpointsFromTemplate env sc hp = .ok eps) :
    ∀ ep ∈ eps, ep.recordTTL = (getTTLFromAnnotations hp.annotations).1 := by
  unfold endpointsFromTemplate at h
  cases htm : sc.fqdnTemplate with
  | none => rw [htm] at h; exact absurd h (by simp)
  | some t =>
    rw [htm] at h; dsimp only at h
    cases hr : t hp with
    | error e => rw [hr] at h; exact absurd h (by simp)
    | ok s =>
      rw [hr] at h; dsimp only at h
      cases hres : resolveTargets env sc hp.annotations with
      | error e => rw [hres] at h; exact absurd h (by simp)
      | ok targets =>
        rw [hres] at h; dsimp only at h
        cases h
        intro ep hep
        rw [List.mem_flatMap] at hep
        obtain ⟨hn, _, hmem⟩ := hep
        exact (mem_endpointsForHostname hmem).2.1

/-- The base path cannot fail once target resolution has succeeded. -/
theorem endpointsFromHttpProxy_ok {env : Env} {sc : HttpProxySource} {hp : HTTPProxy}
    {ts : List String} (hres : resolveTargets env sc hp.annotations = .ok ts) :
    ∃ eps, endpointsFromHttpProxy env sc hp = .ok eps := by
  unfold endpointsFromHttpProxy
  split
  · exact ⟨[], rfl⟩
  · rw [hres]
    exact ⟨_, rfl⟩

/-- The template path cannot fail once the render and target resolution
have succeeded. -/
theorem endpointsFromTemplate_ok {env : Env} {sc : HttpProxySource} {hp : HTTPProxy}
    {t : HTTPProxy → Except String String} {s : String} {ts : List String}
    (htm : sc.fqdnTemplate = some t) (hrun : t hp = .ok s)
    (hres : resolveTargets env sc hp.annotations = .ok ts) :
    ∃ eps, endpointsFromTemplate env sc hp = .ok eps := by
  unfold endpointsFromTemplate
  rw [htm]
  dsimp only
  rw [hrun]
  dsimp only
  rw [hres]
  exact ⟨_, rfl⟩

/-- C9: a malformed TTL annotation never aborts synthesis: the parse
failure only raises the warning flag, the resource's endpoints are
still generated (on both the base path and the template path, given
successful target resolution), and every resulting endpoint has the
unset TTL. -/
theorem malformed_ttl_nonfatal (env : Env) (sc : HttpProxySource) (hp : HTTPProxy) (v : String)
    (hv : lookupAnn hp.annotations ttlAnnotationKey = some v)
    (hbad : parseNonNegInt v = none) :
    getTTLFromAnnotations hp.annotations = (ttlUnset, true)
    ∧ (∀ ts, resolveTargets env sc hp.annotations = .ok ts →
        ∃ eps, endpointsFromHttpProxy env sc hp = .ok eps ∧
          ∀ ep ∈ eps, ep.recordTTL = ttlUnset)
    ∧ (∀ t s ts, sc.fqdnTemplate = some t → t hp = .ok s →
        resolveTargets env sc hp.annotations = .ok ts →
        ∃ eps, endpointsFromTemplate env sc hp = .ok eps ∧
          ∀ ep ∈ eps, ep.recordTTL = ttlUnset) := by
  have httl : getTTLFromAnnotations hp.annotations = (ttlUnset, true) := by
    unfold getTTLFromAnnotations
    rw [hv]
    dsimp only
    rw [hbad]
  refine ⟨httl, ?_, ?_⟩
  · intro ts hres
    obtain ⟨eps, he⟩ := endpointsFromHttpProxy_ok hres
    exact ⟨eps, he, fun ep hep => by rw [endpointsFromHttpProxy_ttl he ep hep, httl]⟩
  · intro t s ts htm hrun hres
    obtain ⟨eps, he⟩ := endpointsFromTemplate_ok htm hrun hres
    exact ⟨eps, he, fun ep hep => by rw [endpointsFromTemplate_ttl he ep hep, httl]⟩

/-- A valid resource carrying the malformed TTL annotation `"abc"`. -/
def hpBadTTL : HTTPProxy :=
  { ns := "default", name := "ttl",
    annotations := [(ttlAnnotationKey, "abc"), (targetAnnotationKey, "1.2.3.4")],
    spec := { virtualHost := some { fqdn := "t.com" } },
    status := { currentStatus := "valid" } }

/-- Witness for C9 on the `"abc"` TTL annotation. -/
theorem malformed_ttl_nonfatal_witness :
    getTTLFromAnnotations hpBadTTL.annotations = (ttlUnset, true) ∧
    (∃ eps, endpointsFromHttpProxy envNoSvc scDots hpBadTTL = .ok eps ∧
      ∀ ep ∈ eps, ep.recordTTL = ttlUnset) ∧
    (∃ eps, endpointsFromTemplate envNoSvc scDots hpBadTTL = .ok eps ∧
      ∀ ep ∈ eps, ep.recordTTL = ttlUnset) :=
  ⟨(malformed_ttl_nonfatal envNoSvc scDots hpBadTTL "abc" (by decide) (by decide)).1,
   (malformed_ttl_nonfatal envNoSvc scDots hpBadTTL "abc" (by decide) (by decide)).2.1
     ["1.2.3.4"] (by decide),
   (malformed_ttl_nonfatal envNoSvc scDots hpBadTTL "abc" (by decide) (by decide)).2.2
     tmplDots "foo.." ["1.2.3.4"] rfl rfl (by decide)⟩

/-- C8: an unparsable filter expression makes the synthesis entry point
return that error before any per-resource processing; an empty selector
returns the candidate list unchanged; and a parsable non-empty selector
matching no resource yields the empty result with no error. -/
theorem annotation_filter_contract (env : Env) (sc : HttpProxySource) (hps : List HTTPProxy) :
    (∀ e, env.parseAnnotationFilter sc.annotationFilter = .error e →
      Endpoints env sc hps = .error e)
    ∧ (∀ sel, env.parseAnnotationFilter sc.annotationFilter = .ok sel →
        sel.isEmptySel = true →
        filterByAnnotations env sc hps = .ok hps)
    ∧ (∀ sel, env.parseAnnotationFilter sc.annotationFilter = .ok sel →
        sel.isEmptySel = false →
        (∀ hp ∈ hps, sel.selMatches hp.annotations = false) →
        filterByAnnotations env sc hps = .ok [] ∧ Endpoints env sc hps = .ok []) := by
  refine ⟨?_, ?_, ?_⟩
  · intro e he
    unfold Endpoints filterByAnnotations
    rw [he]
  · intro sel hsel hemp
    unfold filterByAnnotations
    rw [hsel]
    dsimp only
    rw [if_pos hemp]
  · intro sel hsel hemp hnone
    have hfilter : filterByAnnotations env sc hps = .ok [] := by
      unfold filterByAnnotations
      rw [hsel]
      dsimp only
      rw [if_neg (by simp [hemp])]
      congr 1
      exact List.filter_eq_nil_iff.mpr (fun hp hm => by simp [hnone hp hm])
    refine ⟨hfilter, ?_⟩
    unfold Endpoints
    rw [hfilter]
    dsimp only
    simp [endpointsLoop]

/-- A selector parser that always fails. -/
def envParseErr : Env :=
  { parseAnnotationFilter := fun _ => .error "bad filter",
    getService := fun _ _ => .error "service not found" }

/-- A non-empty selector matching nothing. -/
def selNone : Selector := { isEmptySel := false, selMatches := fun _ => false }

/-- An environment whose selector parser yields the match-nothing
selector. -/
def envSelNone : Env :=
  { parseAnnotationFilter := fun _ => .ok selNone,
    getService := fun _ _ => .error "service not found" }

/-- Witness for C8 on concrete parser environments. -/
theorem annotation_filter_contract_witness :
    Endpoints envParseErr sampleSc [sampleHp] = .error "bad filter" ∧
    filterByAnnotations sampleEnv sampleSc [sampleHp] = .ok [sampleHp] ∧
    (filterByAnnotations envSelNone sampleSc [sampleHp] = .ok [] ∧
     Endpoints envSelNone sampleSc [sampleHp] = .ok []) :=
  ⟨(annotation_filter_contract envParseErr sampleSc [sampleHp]).1 "bad filter" rfl,
   (annotation_filter_contract sampleEnv sampleSc [sampleHp]).2.1 selAll rfl rfl,
   (annotation_filter_contract envSelNone sampleSc [sampleHp]).2.2 selNone rfl rfl
     (fun _ _ => rfl)⟩

/-- The base path ignores the configured template entirely. -/
theorem endpointsFromHttpProxy_template_irrel (env : Env) (sc : HttpProxySource)
    (hp : HTTPProxy) (tnew : Option (HTTPProxy → Except String String)) :
    endpointsFromHttpProxy env { sc with fqdnTemplate := tnew } hp =
      endpointsFromHttpProxy env sc hp := rfl

/-- With no template configured, the template conditional passes the
base endpoints through. -/
theorem templateStep_none {env : Env} {sc : HttpProxySource} {hp : HTTPProxy}
    (htm : sc.fqdnTemplate = none) (eps : List Endpoint) :
    templateStep env sc hp eps = .ok eps := by
  unfold templateStep
  rw [htm]
  split <;> rfl

/-- With combine off and a non-empty base list, the template
conditional passes the base endpoints through (the template is not
evaluated). -/
theorem templateStep_skip {env : Env} {sc : HttpProxySource} {hp : HTTPProxy}
    {eps : List Endpoint} (hcomb : sc.combineFQDN = false) (hne : eps ≠ []) :
    templateStep env sc hp eps = .ok eps := by
  unfold templateStep
  rw [hcomb]
  simp [List.isEmpty_iff, hne]

/-- A template render error propagates through the template path with
the decorated message. -/
theorem endpointsFromTemplate_render_error {env : Env} {sc : HttpProxySource} {hp : HTTPProxy}
    {t : HTTPProxy → Except String String} {e : String}
    (htm : sc.fqdnTemplate = some t) (herr : t hp = .error e) :
    endpointsFromTemplate env sc hp =
      .error ("failed to apply template on HTTPProxy " ++ hp.ns ++ "/" ++ hp.name ++ ": " ++ e) := by
  unfold endpointsFromTemplate
  rw [htm]
  dsimp only
  rw [herr]

/-- When the template gate is open (combine on, or empty base list), a
render error aborts the whole per-resource body. -/
theorem eligibleEndpoints_render_error {env : Env} {sc : HttpProxySource} {hp : HTTPProxy}
    {t : HTTPProxy → Except String String} {e : String} {eps : List Endpoint}
    (htm : sc.fqdnTemplate = some t) (herr : t hp = .error e)
    (hbase : endpointsFromHttpProxy env sc hp = .ok eps)
    (hcond : sc.combineFQDN = true ∨ eps = []) :
    eligibleEndpoints env sc hp =
      .error ("failed to apply template on HTTPProxy " ++ hp.ns ++ "/" ++ hp.name ++ ": " ++ e) := by
  have hcondb : (sc.combineFQDN || eps.isEmpty) = true := by
    rcases hcond with hc | hc <;> simp [hc]
  have hts : templateStep env sc hp eps =
      .error ("failed to apply template on HTTPProxy " ++ hp.ns ++ "/" ++ hp.name ++ ": " ++ e) := by
    unfold templateStep
    rw [if_pos hcondb, htm]
    dsimp only
    rw [endpointsFromTemplate_render_error htm herr]
  unfold eligibleEndpoints
  rw [hbase]
  dsimp only
  rw [hts]

/-- With combine on, the template conditional appends the template
endpoints to the base endpoints. -/
theorem templateStep_combine {env : Env} {sc : HttpProxySource} {hp : HTTPProxy}
    {teps : List Endpoint} (eps : List Endpoint) (hcomb : sc.combineFQDN = true)
    (htt : endpointsFromTemplate env sc hp = .ok teps) :
    templateStep env sc hp eps = .ok (eps ++ teps) := by
  unfold templateStep
  rw [if_pos (by simp [hcomb])]
  cases htm : sc.fqdnTemplate with
  | none =>
    exfalso
    unfold endpointsFromTemplate at htt
    rw [htm] at htt
    exact absurd htt (by simp)
  | some t =>
    dsimp only
    rw [htt]
    dsimp only
    rw [if_pos hcomb]

/-- With combine off and an empty base list, the template endpoints
replace the base list. -/
theorem templateStep_replace {env : Env} {sc : HttpProxySource} {hp : HTTPProxy}
    {teps : List Endpoint} (hcomb : sc.combineFQDN = false)
    (htt : endpointsFromTemplate env sc hp = .ok teps) :
    templateStep env sc hp [] = .ok teps := by
  unfold templateStep
  rw [if_pos (by simp)]
  cases htm : sc.fqdnTemplate with
  | none =>
    exfalso
    unfold endpointsFromTemplate at htt
    rw [htm] at htt
    exact absurd htt (by simp)
  | some t =>
    dsimp only
    rw [htt]
    dsimp only
    rw [hcomb]
    rfl

/-- C4 counterexample: with combine disabled and a non-empty primary
hostname (`a.com`) but no targets, the primary path produces zero
endpoints and the template IS evaluated — its render error aborts the
pass — refuting the claim that a non-empty primary hostname alone
prevents template evaluation. -/
theorem template_gate_counterexample :
    scBoom.combineFQDN = false ∧
    hpAcom.spec.virtualHost = some { fqdn := "a.com" } ∧
    gateSkip hpAcom = false ∧
    Endpoints envNoSvc scBoom [hpAcom] =
      .error "failed to apply template on HTTPProxy default/x: boom" ∧
    Endpoints envNoSvc { scBoom with fqdnTemplate := none } [hpAcom] = .ok [] := by decide

/-- C4 (amended): the template is evaluated iff a template is
configured and either combine mode is on or the primary path produced
zero endpoints; under combine the template endpoints are appended,
otherwise they replace the (empty) primary list; and with combine
disabled and a primary path that produced at least one endpoint the
template is not evaluated. -/
theorem template_gate_amended (env : Env) (sc : HttpProxySource) (hp : HTTPProxy) :
    (∀ eps, sc.fqdnTemplate = none → templateStep env sc hp eps = .ok eps)
    ∧ (∀ eps, sc.combineFQDN = false → endpointsFromHttpProxy env sc hp = .ok eps →
        eps ≠ [] →
        eligibleEndpoints env sc hp = eligibleEndpoints env { sc with fqdnTemplate := none } hp)
    ∧ (∀ t e eps, sc.fqdnTemplate = some t → t hp = .error e →
        endpointsFromHttpProxy env sc hp = .ok eps → (sc.combineFQDN = true ∨ eps = []) →
        eligibleEndpoints env sc hp =
          .error ("failed to apply template on HTTPProxy " ++ hp.ns ++ "/" ++ hp.name ++ ": " ++ e))
    ∧ (∀ eps teps, sc.combineFQDN = true → endpointsFromTemplate env sc hp = .ok teps →
        templateStep env sc hp eps = .ok (eps ++ teps))
    ∧ (∀ teps, sc.combineFQDN = false → endpointsFromTemplate env sc hp = .ok teps →
        templateStep env sc hp [] = .ok teps) := by
  refine ⟨?_, ?_, ?_, ?_, ?_⟩
  · intro eps htm
    exact templateStep_none htm eps
  · intro eps hcomb hbase hne
    have hbase2 : endpointsFromHttpProxy env { sc with fqdnTemplate := none } hp = .ok eps := by
      rw [endpointsFromHttpProxy_template_irrel]
      exact hbase
    have hts : templateStep env sc hp eps = .ok eps := templateStep_skip hcomb hne
    have hts2 : templateStep env { sc with fqdnTemplate := none } hp eps = .ok eps :=
      templateStep_none rfl eps
    unfold eligibleEndpoints
    rw [hbase, hbase2]
    dsimp only
    rw [hts, hts2]
  · intro t e eps htm herr hbase hcond
    exact eligibleEndpoints_render_error htm herr hbase hcond
  · intro eps teps hcomb htt
    exact templateStep_combine eps hcomb htt
  · intro teps hcomb htt
    exact templateStep_replace hcomb htt

/-- A template rendering to the fixed hostname `b.com`. -/
def tmplB : HTTPProxy → Except String String := fun _ => .ok "b.com"

/-- A combine-mode source with the `b.com` template. -/
def scCombine : HttpProxySource :=
  { contourLoadBalancerService := "heptio-contour/contour",
    annotationFilter := "",
    fqdnTemplate := some tmplB,
    combineFQDN := true,
    ignoreHostnameAnns := true }

/-- The unlabeled endpoints of the sample resource's primary path. -/
def sampleBase : List Endpoint :=
  [{ dnsName := "a.example.com", targets := ["10.0.0.1"], recordType := "A", recordTTL := -1,
     labels := [], providerSpecific := [], setIdentifier := "" },
   { dnsName := "a.example.com", targets := ["lb.example.com"], recordType := "CNAME",
     recordTTL := -1, labels := [], providerSpecific := [], setIdentifier := "" }]

/-- The unlabeled endpoints the `b.com` template yields on the sample
environment. -/
def tepsB : List Endpoint :=
  [{ dnsName := "b.com", targets := ["10.0.0.1"], recordType := "A", recordTTL := -1,
     labels := [], providerSpecific := [], setIdentifier := "" },
   { dnsName := "b.com", targets := ["lb.example.com"], recordType := "CNAME",
     recordTTL := -1, labels := [], providerSpecific := [], setIdentifier := "" }]

/-- The endpoint the two-period template assembles. -/
def epFooDot : Endpoint :=
  { dnsName := "foo.", targets := ["1.2.3.4"], recordType := "A", recordTTL := -1,
    labels := [], providerSpecific := [], setIdentifier := "" }

/-- Witness for the amended C4 on concrete configurations: pass-through
without a template, skipping with combine off and a non-empty base,
the render-error abort, appending under combine, and replacement. -/
theorem template_gate_amended_witness :
    templateStep sampleEnv sampleSc sampleHp sampleBase = .ok sampleBase ∧
    eligibleEndpoints sampleEnv scDots sampleHp =
      eligibleEndpoints sampleEnv { scDots with fqdnTemplate := none } sampleHp ∧
    eligibleEndpoints envNoSvc scBoom hpAcom =
      .error "failed to apply template on HTTPProxy default/x: boom" ∧
    templateStep sampleEnv scCombine sampleHp sampleBase = .ok (sampleBase ++ tepsB) ∧
    templateStep envNoSvc scDots hpDots [] = .ok [epFooDot] :=
  ⟨(template_gate_amended sampleEnv sampleSc sampleHp).1 sampleBase rfl,
   (template_gate_amended sampleEnv scDots sampleHp).2.1 sampleBase rfl (by decide) (by decide),
   (template_gate_amended envNoSvc scBoom hpAcom).2.2.1 tmplBoom "boom" [] rfl rfl
     (by decide) (Or.inr rfl),
   (template_gate_amended sampleEnv scCombine sampleHp).2.2.2.1 sampleBase tepsB rfl (by decide),
   (template_gate_amended envNoSvc scDots hpDots).2.2.2.2 [epFooDot] rfl (by decide)⟩

/-- A loop containing a resource whose iteration errors produces an
error itself. -/
theorem endpointsLoop_error_of_mem {env : Env} {sc : HttpProxySource} {hp : HTTPProxy}
    {m : String} :
    ∀ {l : List HTTPProxy}, hp ∈ l → proxyEndpoints env sc hp = .error m →
      ∃ msg, endpointsLoop env sc l = .error msg := by
  intro l
  induction l with
  | nil => intro hmem; simp at hmem
  | cons q rest ih =>
    intro hmem herr
    rw [List.mem_cons] at hmem
    cases hq : proxyEndpoints env sc q with
    | error e =>
      refine ⟨e, ?_⟩
      simp only [endpointsLoop]
      rw [hq]
    | ok cur =>
      rcases hmem with rfl | hmem
      · rw [hq] at herr
        exact absurd herr (by simp)
      · obtain ⟨msg, hrest⟩ := ih hmem herr
        refine ⟨msg, ?_⟩
        simp only [endpointsLoop]
        rw [hq]
        dsimp only
        rw [hrest]

/-- C5: a template render error during synthesis is fatal for the whole
pass: when the configured template fails on any filtered, eligible
resource whose template gate is open, the synthesis entry point returns
an error instead of an endpoint list. -/
theorem template_render_error_fatal (env : Env) (sc : HttpProxySource)
    (hps flist : List HTTPProxy) (hp : HTTPProxy)
    (t : HTTPProxy → Except String String) (e : String) (eps : List Endpoint)
    (hfilter : filterByAnnotations env sc hps = .ok flist)
    (hmem : hp ∈ flist)
    (hgate : gateSkip hp = false)
    (htm : sc.fqdnTemplate = some t)
    (herr : t hp = .error e)
    (hbase : endpointsFromHttpProxy env sc hp = .ok eps)
    (hcond : sc.combineFQDN = true ∨ eps = []) :
    ∃ msg, Endpoints env sc hps = .error msg := by
  have hel := eligibleEndpoints_render_error htm herr hbase hcond
  have hproxy : proxyEndpoints env sc hp =
      .error ("failed to apply template on HTTPProxy " ++ hp.ns ++ "/" ++ hp.name ++ ": " ++ e) := by
    unfold proxyEndpoints
    rw [hgate]
    simpa using hel
  obtain ⟨msg, hloop⟩ := endpointsLoop_error_of_mem hmem hproxy
  refine ⟨msg, ?_⟩
  unfold Endpoints
  rw [hfilter]
  dsimp only
  rw [hloop]

/-- Witness for C5 on the failing template fixture. -/
theorem template_render_error_fatal_witness :
    ∃ msg, Endpoints envNoSvc scBoom [hpAcom] = .error msg :=
  template_render_error_fatal envNoSvc scBoom [hpAcom] [hpAcom] hpAcom tmplBoom "boom" []
    (by decide) (by decide) (by decide) rfl rfl (by decide) (Or.inr rfl)

/-- Stripping one trailing period can only leave a trailing period
behind when the original string ended in two periods. -/
theorem trimSuffixDot_trailing {s : String}
    (h : (trimSuffixDot s).data.reverse.head? = some '.') :
    s.data.reverse.take 2 = ['.', '.'] := by
  unfold trimSuffixDot at h
  by_cases hc : s.data.reverse.head? = some '.'
  · rw [if_pos hc] at h
    rw [show (String.mk s.data.reverse.tail.reverse).data = s.data.reverse.tail.reverse from rfl,
      List.reverse_reverse] at h
    cases hrev : s.data.reverse with
    | nil => rw [hrev] at hc; simp at hc
    | cons a rest =>
      rw [hrev] at hc h
      simp only [List.head?_cons, Option.some.injEq] at hc
      simp only [List.tail_cons] at h
      cases hr2 : rest with
      | nil => rw [hr2] at h; simp at h
      | cons b rest2 =>
        rw [hr2] at h
        simp only [List.head?_cons, Option.some.injEq] at h
        simp [List.take, hc, h]
  · rw [if_neg hc] at h
    exact absurd h hc

/-- C6 counterexample: the template output `"foo.."` loses only one of
its two trailing periods, so the assembled hostname is `"foo."` — it
still ends in the separator character, refuting the invariant that no
assembled hostname retains a trailing separator. -/
theorem template_trailing_dot_counterexample :
    endpointsFromTemplate envNoSvc scDots hpDots = .ok [epFooDot] ∧
    epFooDot.dnsName = "foo." ∧
    ("foo.").data.reverse.head? = some '.' := by decide

/-- Every endpoint assembled for a hostname draws its targets from the
given target list. -/
theorem mem_endpointsForHostname_targets {ep : Endpoint} {h : String} {ts : List String}
    {ttl : Int} {ps : List (String × String)} {si : String}
    (hm : ep ∈ endpointsForHostname h ts ttl ps si) :
    ∀ tg ∈ ep.targets, tg ∈ ts := by
  unfold endpointsForHostname at hm
  rw [List.mem_append] at hm
  rcases hm with hm | hm <;>
    · split at hm
      · simp at hm
      · rw [List.mem_singleton] at hm
        subst hm
        intro tg htg
        exact List.mem_of_mem_filter htg

/-- C6 (amended): for every resource processed through the template
path, the rendered template output is split on commas, whitespace is
stripped, a single trailing separator character (".") is stripped from
each hostname, and each resulting non-empty string is assembled into
endpoints using the same targets, TTL, and provider metadata as the
resource's other endpoints; no assembled hostname retains a trailing
separator character unless its rendered hostname ended in two or more
separator characters. -/
theorem template_postprocessing_amended (env : Env) (sc : HttpProxySource) (hp : HTTPProxy)
    (t : HTTPProxy → Except String String) (s : String) (ts : List String)
    (htm : sc.fqdnTemplate = some t) (hrun : t hp = .ok s)
    (hres : resolveTargets env sc hp.annotations = .ok ts) :
    endpointsFromTemplate env sc hp =
      .ok ((splitChar ',' (removeSpaces s)).flatMap (fun h =>
        endpointsForHostname (trimSuffixDot h) ts (getTTLFromAnnotations hp.annotations).1
          (getProviderSpecificAnnotations hp.annotations).1
          (getProviderSpecificAnnotations hp.annotations).2))
    ∧ (∀ eps, endpointsFromTemplate env sc hp = .ok eps →
        ∀ seg ∈ splitChar ',' (removeSpaces s), trimSuffixDot seg ≠ "" →
          ∀ ep ∈ endpointsForHostname (trimSuffixDot seg) ts
              (getTTLFromAnnotations hp.annotations).1
              (getProviderSpecificAnnotations hp.annotations).1
              (getProviderSpecificAnnotations hp.annotations).2,
            ep ∈ eps ∧ ep.dnsName = trimSuffixDot seg ∧
            ep.recordTTL = (getTTLFromAnnotations hp.annotations).1 ∧
            ep.providerSpecific = (getProviderSpecificAnnotations hp.annotations).1 ∧
            ep.setIdentifier = (getProviderSpecificAnnotations hp.annotations).2 ∧
            (∀ tg ∈ ep.targets, tg ∈ ts))
    ∧ (∀ eps, endpointsFromTemplate env sc hp = .ok eps → ∀ ep ∈ eps,
        ∃ seg ∈ splitChar ',' (removeSpaces s),
          ep.dnsName = trimSuffixDot seg ∧
          ep.recordTTL = (getTTLFromAnnotations hp.annotations).1 ∧
          (seg.data.reverse.take 2 ≠ ['.', '.'] →
            ep.dnsName.data.reverse.head? ≠ some '.')) := by
  have heq : endpointsFromTemplate env sc hp =
      .ok ((splitChar ',' (removeSpaces s)).flatMap (fun h =>
        endpointsForHostname (trimSuffixDot h) ts (getTTLFromAnnotations hp.annotations).1
          (getProviderSpecificAnnotations hp.annotations).1
          (getProviderSpecificAnnotations hp.annotations).2)) := by
    unfold endpointsFromTemplate
    rw [htm]
    dsimp only
    rw [hrun]
    dsimp only
    rw [hres]
  refine ⟨heq, ?_, ?_⟩
  · intro eps heps seg hseg _ ep hep
    rw [heq] at heps
    have heps2 := (Except.ok.inj heps).symm
    subst heps2
    obtain ⟨hdns, httl, -, hps, hsi⟩ := mem_endpointsForHostname hep
    exact ⟨List.mem_flatMap.mpr ⟨seg, hseg, hep⟩, hdns, httl, hps, hsi,
      mem_endpointsForHostname_targets hep⟩
  · intro eps heps ep hep
    rw [heq] at heps
    have heps2 := (Except.ok.inj heps).symm
    subst heps2
    rw [List.mem_flatMap] at hep
    obtain ⟨seg, hseg, hmem⟩ := hep
    obtain ⟨hdns, httl, -, -, -⟩ := mem_endpointsForHostname hmem
    refine ⟨seg, hseg, hdns, httl, ?_⟩
    intro hne hcontra
    rw [hdns] at hcontra
    exact hne (trimSuffixDot_trailing hcontra)

/-- Witness for the amended C6 on the two-period template fixture:
the structural equation, the assembly of the non-empty piece `"foo."`
with the shared data, and the weakened trailing-separator invariant. -/
theorem template_postprocessing_amended_witness :
    endpointsFromTemplate envNoSvc scDots hpDots =
      .ok ((splitChar ',' (removeSpaces "foo..")).flatMap (fun h =>
        endpointsForHostname (trimSuffixDot h) ["1.2.3.4"]
          (getTTLFromAnnotations hpDots.annotations).1
          (getProviderSpecificAnnotations hpDots.annotations).1
          (getProviderSpecificAnnotations hpDots.annotations).2)) ∧
    (epFooDot ∈ [epFooDot] ∧ epFooDot.dnsName = trimSuffixDot "foo.." ∧
      epFooDot.recordTTL = (getTTLFromAnnotations hpDots.annotations).1 ∧
      epFooDot.providerSpecific = (getProviderSpecificAnnotations hpDots.annotations).1 ∧
      epFooDot.setIdentifier = (getProviderSpecificAnnotations hpDots.annotations).2 ∧
      (∀ tg ∈ epFooDot.targets, tg ∈ ["1.2.3.4"])) ∧
    (∃ seg ∈ splitChar ',' (removeSpaces "foo.."),
      epFooDot.dnsName = trimSuffixDot seg ∧
      epFooDot.recordTTL = (getTTLFromAnnotations hpDots.annotations).1 ∧
      (seg.data.reverse.take 2 ≠ ['.', '.'] →
        epFooDot.dnsName.data.reverse.head? ≠ some '.')) :=
  ⟨(template_postprocessing_amended envNoSvc scDots hpDots tmplDots "foo.." ["1.2.3.4"]
      rfl rfl (by decide)).1,
   (template_postprocessing_amended envNoSvc scDots hpDots tmplDots "foo.." ["1.2.3.4"]
      rfl rfl (by decide)).2.1 [epFooDot] (by decide) "foo.." (by decide) (by decide)
     epFooDot (by decide),
   (template_postprocessing_amended envNoSvc scDots hpDots tmplDots "foo.." ["1.2.3.4"]
      rfl rfl (by decide)).2.2 [epFooDot] (by decide) epFooDot (by decide)⟩

/-- Endpoint similarity: equal in every field except the target lists,
which are permutations of each other. -/
def EpSim (a b : Endpoint) : Prop :=
  a.dnsName = b.dnsName ∧ a.recordType = b.recordType ∧ a.recordTTL = b.recordTTL ∧
  a.labels = b.labels ∧ a.providerSpecific = b.providerSpecific ∧
  a.setIdentifier = b.setIdentifier ∧ a.targets.Perm b.targets

/-- Environment similarity: the same selector parser, and service
lookups that agree up to the order of each ingress list (failures may
carry different messages). -/
def EnvSim (env1 env2 : Env) : Prop :=
  env1.parseAnnotationFilter = env2.parseAnnotationFilter ∧
  ∀ lbNs lbName,
    (∃ e1 e2, env1.getService lbNs lbName = .error e1 ∧
       env2.getService lbNs lbName = .error e2) ∨
    (∃ s1 s2, env1.getService lbNs lbName = .ok s1 ∧ env2.getService lbNs lbName = .ok s2 ∧
       s1.ingress.Perm s2.ingress)

/-- Result similarity for endpoint lists: identical errors, or
successes related pointwise by `EpSim`. -/
def ExceptEpSim (r1 r2 : Except String (List Endpoint)) : Prop :=
  (∃ e, r1 = .error e ∧ r2 = .error e) ∨
  (∃ l1 l2, r1 = .ok l1 ∧ r2 = .ok l2 ∧ List.Forall₂ EpSim l1 l2)

/-- Result similarity for target lists: identical errors, or successes
that are permutations. -/
def TargetsSim (r1 r2 : Except String (List String)) : Prop :=
  (∃ e, r1 = .error e ∧ r2 = .error e) ∨
  (∃ t1 t2, r1 = .ok t1 ∧ r2 = .ok t2 ∧ t1.Perm t2)

/-- Sorting two permuted string lists gives the same list. -/
theorem insertionSort_eq_of_perm {l1 l2 : List String} (h : l1.Perm l2) :
    l1.insertionSort (· ≤ ·) = l2.insertionSort (· ≤ ·) :=
  List.eq_of_perm_of_sorted
    ((List.perm_insertionSort _ l1).trans (h.trans (List.perm_insertionSort _ l2).symm))
    (List.sorted_insertionSort _ l1) (List.sorted_insertionSort _ l2)

/-- Similar endpoints coincide after target normalization. -/
theorem sortTargets_eq_of_epSim {a b : Endpoint} (h : EpSim a b) :
    sortTargets a = sortTargets b := by
  obtain ⟨h1, h2, h3, h4, h5, h6, h7⟩ := h
  cases a
  cases b
  dsimp only at h1 h2 h3 h4 h5 h6 h7
  subst h1; subst h2; subst h3; subst h4; subst h5; subst h6
  unfold sortTargets
  dsimp only
  rw [insertionSort_eq_of_perm h7]

/-- Pointwise-similar lists coincide after target normalization. -/
theorem map_eq_of_forall2_epSim {l1 l2 : List Endpoint} (h : List.Forall₂ EpSim l1 l2) :
    l1.map sortTargets = l2.map sortTargets := by
  induction h with
  | nil => rfl
  | cons hab htail ih => simp [sortTargets_eq_of_epSim hab, ih]

/-- Similarity is reflexive on endpoint lists. -/
theorem forall2_epSim_refl (l : List Endpoint) : List.Forall₂ EpSim l l := by
  induction l with
  | nil => exact List.Forall₂.nil
  | cons a rest ih => exact List.Forall₂.cons ⟨rfl, rfl, rfl, rfl, rfl, rfl, List.Perm.refl _⟩ ih

/-- Mapping pointwise-similar per-item outputs over the same list gives
pointwise-similar flattenings. -/
theorem forall2_flatMap {α : Type} {f g : α → List Endpoint} (hs : List α)
    (h : ∀ x ∈ hs, List.Forall₂ EpSim (f x) (g x)) :
    List.Forall₂ EpSim (hs.flatMap f) (hs.flatMap g) := by
  induction hs with
  | nil =>
    simp only [List.flatMap_nil]
    exact List.Forall₂.nil
  | cons x rest ih =>
    simp only [List.flatMap_cons]
    exact List.rel_append (h x (List.mem_cons_self x rest))
      (ih (fun y hy => h y (List.mem_cons_of_mem x hy)))

/-- Assembling one hostname from permuted target lists yields
pointwise-similar endpoints. -/
theorem endpointsForHostname_sim {ts1 ts2 : List String} (hperm : ts1.Perm ts2)
    (h : String) (ttl : Int) (ps : List (String × String)) (si : String) :
    List.Forall₂ EpSim (endpointsForHostname h ts1 ttl ps si)
      (endpointsForHostname h ts2 ttl ps si) := by
  unfold endpointsForHostname
  have pa : (ts1.filter (fun t => isIP t)).Perm (ts2.filter (fun t => isIP t)) :=
    hperm.filter _
  have pc : (ts1.filter (fun t => !isIP t)).Perm (ts2.filter (fun t => !isIP t)) :=
    hperm.filter _
  have hlen : ∀ (u v : List String), u.length = v.length → u.isEmpty = v.isEmpty := by
    intro u v hl
    cases u <;> cases v <;> simp_all
  have hae := hlen _ _ pa.length_eq
  have hce := hlen _ _ pc.length_eq
  dsimp only
  refine List.rel_append ?_ ?_
  · by_cases ha : (ts1.filter (fun t => isIP t)).isEmpty
    · rw [if_pos ha, if_pos (by rw [← hae]; exact ha)]
      exact List.Forall₂.nil
    · rw [if_neg ha, if_neg (by rw [← hae]; exact ha)]
      exact List.Forall₂.cons ⟨rfl, rfl, rfl, rfl, rfl, rfl, pa⟩ List.Forall₂.nil
  · by_cases hc : (ts1.filter (fun t => !isIP t)).isEmpty
    · rw [if_pos hc, if_pos (by rw [← hce]; exact hc)]
      exact List.Forall₂.nil
    · rw [if_neg hc, if_neg (by rw [← hce]; exact hc)]
      exact List.Forall₂.cons ⟨rfl, rfl, rfl, rfl, rfl, rfl, pc⟩ List.Forall₂.nil

/-- Target resolution under similar environments yields permuted
target lists (or the same parse error). -/
theorem resolveTargets_sim {env1 env2 : Env} (hsim : EnvSim env1 env2)
    (sc : HttpProxySource) (anns : List (String × String)) :
    TargetsSim (resolveTargets env1 sc anns) (resolveTargets env2 sc anns) := by
  unfold resolveTargets
  by_cases hann : (getTargetsFromTargetAnnotations anns).isEmpty
  · simp only [if_pos hann]
    unfold targetsFromContourLoadBalancer
    cases hparse : parseContourLoadBalancerService sc.contourLoadBalancerService with
    | error e => exact Or.inl ⟨e, rfl, rfl⟩
    | ok p =>
      obtain ⟨lbNs, lbName⟩ := p
      dsimp only
      rcases hsim.2 lbNs lbName with ⟨e1, e2, hg1, hg2⟩ | ⟨s1, s2, hg1, hg2, hperm⟩
      · rw [hg1, hg2]
        exact Or.inr ⟨[], [], rfl, rfl, List.Perm.refl _⟩
      · rw [hg1, hg2]
        dsimp only
        refine Or.inr ⟨_, _, rfl, rfl, ?_⟩
        rw [collectIngress_eq, collectIngress_eq]
        simpa using hperm.flatMap_right ingressTargets
  · simp only [if_neg hann]
    exact Or.inr ⟨_, _, rfl, rfl, List.Perm.refl _⟩

/-- The base path under similar environments yields pointwise-similar
results. -/
theorem endpointsFromHttpProxy_sim {env1 env2 : Env} (hsim : EnvSim env1 env2)
    (sc : HttpProxySource) (hp : HTTPProxy) :
    ExceptEpSim (endpointsFromHttpProxy env1 sc hp) (endpointsFromHttpProxy env2 sc hp) := by
  unfold endpointsFromHttpProxy
  by_cases hst : hp.status.currentStatus ≠ "valid"
  · simp only [if_pos hst]
    exact Or.inr ⟨[], [], rfl, rfl, List.Forall₂.nil⟩
  · simp only [if_neg hst]
    rcases resolveTargets_sim hsim sc hp.annotations with ⟨e, h1, h2⟩ | ⟨t1, t2, h1, h2, hperm⟩
    · rw [h1, h2]
      exact Or.inl ⟨e, rfl, rfl⟩
    · rw [h1, h2]
      dsimp only
      refine Or.inr ⟨_, _, rfl, rfl, List.rel_append ?_ ?_⟩
      · cases hvh : hp.spec.virtualHost with
        | none => exact List.Forall₂.nil
        | some vh =>
          dsimp only
          by_cases hfq : vh.fqdn ≠ ""
          · simp only [if_pos hfq]
            exact endpointsForHostname_sim hperm vh.fqdn _ _ _
          · simp only [if_neg hfq]
            exact List.Forall₂.nil
      · by_cases hign : (!sc.ignoreHostnameAnns) = true
        · simp only [if_pos hign]
          exact forall2_flatMap _ (fun x _ => endpointsForHostname_sim hperm x _ _ _)
        · simp only [if_neg hign]
          exact List.Forall₂.nil

/-- The template path under similar environments yields
pointwise-similar results. -/
theorem endpointsFromTemplate_sim {env1 env2 : Env} (hsim : EnvSim env1 env2)
    (sc : HttpProxySource) (hp : HTTPProxy) :
    ExceptEpSim (endpointsFromTemplate env1 sc hp) (endpointsFromTemplate env2 sc hp) := by
  unfold endpointsFromTemplate
  cases htm : sc.fqdnTemplate with
  | none => exact Or.inl ⟨_, rfl, rfl⟩
  | some t =>
    dsimp only
    cases hr : t hp with
    | error e => exact Or.inl ⟨_, rfl, rfl⟩
    | ok s =>
      dsimp only
      rcases resolveTargets_sim hsim sc hp.annotations with ⟨e, h1, h2⟩ | ⟨t1, t2, h1, h2, hperm⟩
      · rw [h1, h2]
        exact Or.inl ⟨e, rfl, rfl⟩
      · rw [h1, h2]
        dsimp only
        exact Or.inr ⟨_, _, rfl, rfl,
          forall2_flatMap _ (fun x _ => endpointsForHostname_sim hperm _ _ _ _)⟩

/-- The template conditional preserves similarity. -/
theorem templateStep_sim {env1 env2 : Env} (hsim : EnvSim env1 env2)
    (sc : HttpProxySource) (hp : HTTPProxy) {l1 l2 : List Endpoint}
    (hf : List.Forall₂ EpSim l1 l2) :
    ExceptEpSim (templateStep env1 sc hp l1) (templateStep env2 sc hp l2) := by
  unfold templateStep
  have hemp : l1.isEmpty = l2.isEmpty := by
    have := hf.length_eq
    cases l1 <;> cases l2 <;> simp_all
  rw [hemp]
  by_cases hcond : (sc.combineFQDN || l2.isEmpty) = true
  · simp only [if_pos hcond]
    cases htm : sc.fqdnTemplate with
    | none => exact Or.inr ⟨l1, l2, rfl, rfl, hf⟩
    | some t =>
      dsimp only
      rcases endpointsFromTemplate_sim hsim sc hp with ⟨e, h1, h2⟩ | ⟨u1, u2, h1, h2, hfu⟩
      · rw [h1, h2]
        exact Or.inl ⟨e, rfl, rfl⟩
      · rw [h1, h2]
        dsimp only
        by_cases hc : sc.combineFQDN = true
        · simp only [if_pos hc]
          exact Or.inr ⟨_, _, rfl, rfl, List.rel_append hf hfu⟩
        · simp only [if_neg hc]
          exact Or.inr ⟨u1, u2, rfl, rfl, hfu⟩
  · simp only [if_neg hcond]
    exact Or.inr ⟨l1, l2, rfl, rfl, hf⟩

/-- Labelling preserves similarity. -/
theorem setResourceLabel_sim {a b : Endpoint} (hp : HTTPProxy) (h : EpSim a b) :
    EpSim (setResourceLabel hp a) (setResourceLabel hp b) := by
  obtain ⟨h1, h2, h3, h4, h5, h6, h7⟩ := h
  refine ⟨h1, h2, h3, ?_, h5, h6, h7⟩
  show setAssoc a.labels _ _ = setAssoc b.labels _ _
  rw [h4]

/-- Labelling a pointwise-similar pair of lists preserves similarity. -/
theorem forall2_map_setLabel {hp : HTTPProxy} {l1 l2 : List Endpoint}
    (h : List.Forall₂ EpSim l1 l2) :
    List.Forall₂ EpSim (l1.map (setResourceLabel hp)) (l2.map (setResourceLabel hp)) := by
  induction h with
  | nil => exact List.Forall₂.nil
  | cons hab htail ih => exact List.Forall₂.cons (setResourceLabel_sim hp hab) ih

/-- The per-resource body under similar environments yields
pointwise-similar results. -/
theorem eligibleEndpoints_sim {env1 env2 : Env} (hsim : EnvSim env1 env2)
    (sc : HttpProxySource) (hp : HTTPProxy) :
    ExceptEpSim (eligibleEndpoints env1 sc hp) (eligibleEndpoints env2 sc hp) := by
  unfold eligibleEndpoints
  rcases endpointsFromHttpProxy_sim hsim sc hp with ⟨e, h1, h2⟩ | ⟨l1, l2, h1, h2, hf⟩
  · rw [h1, h2]
    exact Or.inl ⟨e, rfl, rfl⟩
  · rw [h1, h2]
    dsimp only
    rcases templateStep_sim hsim sc hp hf with ⟨e, g1, g2⟩ | ⟨f1, f2, g1, g2, hff⟩
    · rw [g1, g2]
      exact Or.inl ⟨e, rfl, rfl⟩
    · rw [g1, g2]
      dsimp only
      have hemp : f1.isEmpty = f2.isEmpty := by
        have := hff.length_eq
        cases f1 <;> cases f2 <;> simp_all
      by_cases hf1 : f1.isEmpty = true
      · rw [if_pos hf1, if_pos (by rw [← hemp]; exact hf1)]
        exact Or.inr ⟨[], [], rfl, rfl, List.Forall₂.nil⟩
      · rw [if_neg hf1, if_neg (by rw [← hemp]; exact hf1)]
        exact Or.inr ⟨_, _, rfl, rfl, forall2_map_setLabel hff⟩

/-- One loop iteration under similar environments yields
pointwise-similar results. -/
theorem proxyEndpoints_sim {env1 env2 : Env} (hsim : EnvSim env1 env2)
    (sc : HttpProxySource) (hp : HTTPProxy) :
    ExceptEpSim (proxyEndpoints env1 sc hp) (proxyEndpoints env2 sc hp) := by
  unfold proxyEndpoints
  by_cases hg : gateSkip hp = true
  · simp only [if_pos hg]
    exact Or.inr ⟨[], [], rfl, rfl, List.Forall₂.nil⟩
  · simp only [if_neg hg]
    exact eligibleEndpoints_sim hsim sc hp

/-- The loop under similar environments yields pointwise-similar
results. -/
theorem endpointsLoop_sim {env1 env2 : Env} (hsim : EnvSim env1 env2)
    (sc : HttpProxySource) :
    ∀ l : List HTTPProxy, ExceptEpSim (endpointsLoop env1 sc l) (endpointsLoop env2 sc l) := by
  intro l
  induction l with
  | nil =>
    simp only [endpointsLoop]
    exact Or.inr ⟨[], [], rfl, rfl, List.Forall₂.nil⟩
  | cons q rest ih =>
    simp only [endpointsLoop]
    rcases proxyEndpoints_sim hsim sc q with ⟨e, h1, h2⟩ | ⟨c1, c2, h1, h2, hfc⟩
    · rw [h1, h2]
      exact Or.inl ⟨e, rfl, rfl⟩
    · rw [h1, h2]
      dsimp only
      rcases ih with ⟨e, g1, g2⟩ | ⟨r1, r2, g1, g2, hfr⟩
      · rw [g1, g2]
        exact Or.inl ⟨e, rfl, rfl⟩
      · rw [g1, g2]
        dsimp only
        exact Or.inr ⟨_, _, rfl, rfl, List.rel_append hfc hfr⟩

/-- The synthesis entry point gives equal output under similar
environments: the final normalization cancels the ingress-order
nondeterminism of the service lookup. -/
theorem Endpoints_env_eq {env1 env2 : Env} (hsim : EnvSim env1 env2)
    (sc : HttpProxySource) (hps : List HTTPProxy) :
    Endpoints env1 sc hps = Endpoints env2 sc hps := by
  have hfilter : filterByAnnotations env1 sc hps = filterByAnnotations env2 sc hps := by
    unfold filterByAnnotations
    rw [hsim.1]
  unfold Endpoints
  rw [hfilter]
  cases hf : filterByAnnotations env2 sc hps with
  | error e => rfl
  | ok flist =>
    dsimp only
    rcases endpointsLoop_sim hsim sc flist with ⟨e, h1, h2⟩ | ⟨l1, l2, h1, h2, hf2⟩
    · rw [h1, h2]
    · rw [h1, h2]
      dsimp only
      rw [map_eq_of_forall2_epSim hf2]

/-- Every target list the synthesis entry point returns is sorted. -/
theorem Endpoints_sorted {env : Env} {sc : HttpProxySource} {hps : List HTTPProxy}
    {out : List Endpoint} (hout : Endpoints env sc hps = .ok out) :
    ∀ ep ∈ out, ep.targets.Sorted (· ≤ ·) := by
  unfold Endpoints at hout
  cases hf : filterByAnnotations env sc hps with
  | error e => rw [hf] at hout; exact absurd hout (by simp)
  | ok flist =>
    rw [hf] at hout; dsimp only at hout
    cases hl : endpointsLoop env sc flist with
    | error e => rw [hl] at hout; exact absurd hout (by simp)
    | ok eps =>
      rw [hl] at hout; dsimp only at hout
      cases hout
      intro ep hep
      rw [List.mem_map] at hep
      obtain ⟨ep0, _, rfl⟩ := hep
      exact List.sorted_insertionSort _ _

/-- C7: the synthesis output is deterministic: every returned target
list is in the canonical sort order, and the returned endpoint lists
are identical under any reordering of the ingress lists delivered by
the upstream service lookup (running the pure entry point twice on an
unchanged snapshot trivially returns the same value). -/
theorem endpoints_deterministic (env env2 : Env) (sc : HttpProxySource)
    (hps : List HTTPProxy) :
    (∀ out, Endpoints env sc hps = .ok out → ∀ ep ∈ out, ep.targets.Sorted (· ≤ ·))
    ∧ (EnvSim env env2 → Endpoints env sc hps = Endpoints env2 sc hps) :=
  ⟨fun _ hout => Endpoints_sorted hout, fun hsim => Endpoints_env_eq hsim sc hps⟩

/-- Witness for C7 on the swapped-ingress environments. -/
theorem endpoints_deterministic_witness :
    sampleEp.targets.Sorted (· ≤ ·) ∧
    Endpoints envPermA sampleSc [sampleHp] = Endpoints envPermB sampleSc [sampleHp] :=
  ⟨(endpoints_deterministic envPermA envPermB sampleSc [sampleHp]).1 sampleOut (by decide)
     sampleEp (by decide),
   (endpoints_deterministic envPermA envPermB sampleSc [sampleHp]).2
     ⟨rfl, fun _ _ => Or.inr ⟨_, _, rfl, rfl, List.Perm.swap ingB ingA []⟩⟩⟩
